import Mathlib

/-!
# Verification of the snapshot comparison engine of django-migrations-diff

This file gives a shallow embedding, in Lean 4, of the comparison engine
implemented by `DjangoMigrationsDiff` in `django_migrations_diff/main.py`,
together with the parts of Python's standard-library `filecmp.dircmp`
machinery that the engine relies on, and proves properties of the report
it produces.

The filesystem is modelled explicitly: a component directory is an
association list from entry names to entries (a regular file with byte
contents and an mtime, a subdirectory, or an entry whose `stat` fails);
a snapshot is an association list from component names to directories;
the snapshot store maps snapshot names to snapshots.
-/

namespace DjangoMigrationsDiff

/-- A regular file on disk: its byte contents and its modification time
(the two pieces of metadata `filecmp`'s shallow signature reads, besides
the file type; the size is the length of the contents). -/
structure FSFile where
  contents : List Nat
  mtime : Nat
deriving DecidableEq

/-- An entry of a component directory: a regular file, a subdirectory
(with its own one-level contents, which the comparison engine never
reads), or an entry on which `os.stat` fails. -/
inductive FSEntry where
  | file (f : FSFile)
  | dir (sub : List (String × FSFile))
  | funny
deriving DecidableEq

/-- A component directory: names paired with entries, as listed by
`os.listdir`. -/
abbrev Directory := List (String × FSEntry)

/-- A snapshot: component names paired with component directories. -/
abbrev Snapshot := List (String × Directory)

/-- The snapshot store (`snapshots_dir`): snapshot names paired with
snapshot directory trees. -/
abbrev SnapshotStore := List (String × Snapshot)

/-- The sentinel marking an absent file, `self.empty = '---'` in
`DjangoMigrationsDiff.__init__`. -/
def empty : String := "---"

/-- Mirrors `DjangoMigrationsDiff.escape_characters`, which is
`value.replace('/', '-')`: since the pattern is the single character `/`,
this is exactly a character-wise map. -/
def escape_characters (value : String) : String :=
  String.mk (value.data.map (fun c => if c = '/' then '-' else c))

/-- Names directly inside a directory, as `os.listdir` returns them. -/
def listdir (d : Directory) : List String := d.map Prod.fst

/-- Names of the component directories of a snapshot root. -/
def snapshotListdir (s : Snapshot) : List String := s.map Prod.fst

/-- Mirrors `filecmp.DEFAULT_IGNORES`, the names `dircmp` ignores by
default. -/
def DEFAULT_IGNORES : List String :=
  ["RCS", "CVS", "tags", ".git", ".hg", ".bzr", "_darcs", "__pycache__"]

/-- Mirrors `dircmp`'s default `hide` list, `[os.curdir, os.pardir]`. -/
def HIDE : List String := [".", ".."]

/-- Mirrors `filecmp._filter(flist, skip)` applied with `hide + ignore`. -/
def dircmpFilter (names : List String) : List String :=
  names.filter (fun n => decide (n ∉ HIDE ++ DEFAULT_IGNORES))

/-- Lexicographic comparison of character lists by code point, the order
Python uses on strings. -/
def lexLe : List Char → List Char → Bool
  | [], _ => true
  | _ :: _, [] => false
  | x :: xs, y :: ys =>
    if x < y then true else if y < x then false else lexLe xs ys

/-- Python's `<=` on strings: lexicographic by code point. -/
def strLe (a b : String) : Bool := lexLe a.data b.data

/-- Sorting a list of strings, as Python's `list.sort` / `sorted` do
(stable; on distinct strings the result is the unique ordered list). -/
def stringSort (l : List String) : List String :=
  List.insertionSort (fun a b => strLe a b = true) l

/-- Mirrors `filecmp.cmp(f1, f2)` with its default `shallow=True`, on two
regular files: same iff the signatures (size, mtime) coincide, or the
byte contents coincide. -/
def shallowSame (fa fb : FSFile) : Bool :=
  (decide (fa.contents.length = fb.contents.length) && decide (fa.mtime = fb.mtime))
    || decide (fa.contents = fb.contents)

/-- A common name is reported in `dircmp.diff_files` iff both sides are
regular files (`dircmp.phase2` sends anything else to `common_dirs` or
`common_funny`) and shallow comparison says they differ. -/
def isDiffFile (a b : Directory) (n : String) : Bool :=
  match a.lookup n, b.lookup n with
  | some (FSEntry.file fa), some (FSEntry.file fb) => !(shallowSame fa fb)
  | _, _ => false

/-- The three attributes of `filecmp.dircmp` the comparison engine reads. -/
structure DirCmpResult where
  left_only : List String
  right_only : List String
  diff_files : List String
deriving DecidableEq

/-- Mirrors `filecmp.dircmp(a, b)`: filtered sorted listings, set
difference for `left_only` / `right_only`, and shallow file comparison
of common regular files for `diff_files`. -/
def dircmp (a b : Directory) : DirCmpResult :=
  let leftList := stringSort (dircmpFilter (listdir a))
  let rightList := stringSort (dircmpFilter (listdir b))
  { left_only := leftList.filter (fun n => decide (n ∉ rightList))
    right_only := rightList.filter (fun n => decide (n ∉ leftList))
    diff_files := (leftList.filter (fun n => decide (n ∈ rightList))).filter (isDiffFile a b) }

/-- The entry list the `comparison` property builds for one app: the full
one-sided listing when the component exists on one side only, otherwise
the `dircmp` classification. -/
def appEntriesOf (sa sb : Snapshot) (app : String) : List (String × String) :=
  match sa.lookup app, sb.lookup app with
  | none, some bDir => (listdir bDir).map (fun f => (empty, f))
  | some aDir, none => (listdir aDir).map (fun f => (f, empty))
  | some aDir, some bDir =>
      let c := dircmp aDir bDir
      c.left_only.map (fun f => (f, empty))
        ++ c.right_only.map (fun f => (empty, f))
        ++ c.diff_files.map (fun f => (f, f))
  | none, none => []

/-- Mirrors `sorted(self.apps)`: the sorted union of the child names of
the two snapshot roots (`self.apps` is a Python set, hence deduplicated). -/
def sortedApps (sa sb : Snapshot) : List String :=
  stringSort ((snapshotListdir sa ++ snapshotListdir sb).dedup)

/-- The comparison report built by the `comparison` property, given the
two resolved snapshots: apps visited in sorted order, an app keyed in
the `defaultdict` only when at least one entry was appended for it. -/
def comparisonOf (sa sb : Snapshot) : List (String × List (String × String)) :=
  ((sortedApps sa sb).map (fun app => (app, appEntriesOf sa sb app))).filter
    (fun p => !p.2.isEmpty)

/-- The sort key used when displaying a component's entries:
`x[0] if x[0] != self.empty else x[1]`. -/
def presentName (p : String × String) : String :=
  if p.1 ≠ empty then p.1 else p.2

/-- Mirrors `sorted(files, key=lambda x: x[0] if x[0] != self.empty else x[1])`
(Python's sort is stable, as is insertion sort with a total preorder). -/
def displaySort (files : List (String × String)) : List (String × String) :=
  List.insertionSort (fun x y => strLe (presentName x) (presentName y) = true) files

/-- The rendered report: components in report order, each component's
entries in display order. -/
def renderedOf (sa sb : Snapshot) : List (String × List (String × String)) :=
  (comparisonOf sa sb).map (fun p => (p.1, displaySort p.2))

/-- The fatal errors of the engine: `apps` prints that a snapshot does
not exist and exits. -/
inductive MdiffError where
  | snapshotNotFound (name : String)
deriving DecidableEq

/-- The `comparison` property as seen from the store: it resolves both
snapshot roots (the `apps` property checks the first name first and
exits on the first missing one, producing no report), then builds the
report. -/
def comparison (store : SnapshotStore) (na nb : String) :
    Except MdiffError (List (String × List (String × String))) :=
  match store.lookup na, store.lookup nb with
  | none, _ => Except.error (MdiffError.snapshotNotFound na)
  | some _, none => Except.error (MdiffError.snapshotNotFound nb)
  | some sa, some sb => Except.ok (comparisonOf sa sb)

/-- Observable outcome of `compare_snapshots`: the refusal for more than
two names, a fatal missing-snapshot exit, the "snapshots are equal"
message, the rendered table, or the crash (IndexError) that raw calls
with fewer than two names would hit. -/
inductive CompareResult where
  | tooMany
  | err (e : MdiffError)
  | equal
  | table (rows : List (String × List (String × String)))
  | crash
deriving DecidableEq

/-- Mirrors `DjangoMigrationsDiff.compare_snapshots` (with the default
`--number` flag off): escape the names, refuse more than two, report
equality on an empty comparison, otherwise render the sorted table. -/
def compare_snapshots (store : SnapshotStore) (names : List String) : CompareResult :=
  let ns := names.map escape_characters
  if ns.length > 2 then CompareResult.tooMany
  else
    match ns with
    | [na, nb] =>
        match comparison store na nb with
        | Except.error e => CompareResult.err e
        | Except.ok rep =>
            if rep.isEmpty then CompareResult.equal
            else CompareResult.table (rep.map (fun p => (p.1, displaySort p.2)))
    | _ => CompareResult.crash

end DjangoMigrationsDiff

open DjangoMigrationsDiff List

/-! ## Order properties of the lexicographic comparison -/

theorem lexLe_cons_iff (x y : Char) (xs ys : List Char) :
    lexLe (x :: xs) (y :: ys) = true ↔ x < y ∨ (x = y ∧ lexLe xs ys = true) := by
  rcases lt_trichotomy x y with h | h | h
  · simp [lexLe, h]
  · subst h
    simp [lexLe, lt_irrefl]
  · have h1 : ¬ x < y := not_lt.mpr h.le
    simp [lexLe, h1, h, h.ne']

theorem lexLe_total : ∀ xs ys : List Char, lexLe xs ys = true ∨ lexLe ys xs = true
  | [], _ => Or.inl rfl
  | _ :: _, [] => Or.inr rfl
  | x :: xs, y :: ys => by
    rw [lexLe_cons_iff, lexLe_cons_iff]
    rcases lt_trichotomy x y with h | h | h
    · exact Or.inl (Or.inl h)
    · subst h
      rcases lexLe_total xs ys with h | h
      · exact Or.inl (Or.inr ⟨rfl, h⟩)
      · exact Or.inr (Or.inr ⟨rfl, h⟩)
    · exact Or.inr (Or.inl h)

theorem lexLe_trans : ∀ xs ys zs : List Char,
    lexLe xs ys = true → lexLe ys zs = true → lexLe xs zs = true
  | [], _, _, _, _ => rfl
  | _ :: _, [], _, h, _ => by simp [lexLe] at h
  | _ :: _, _ :: _, [], _, h => by simp [lexLe] at h
  | x :: xs, y :: ys, z :: zs, h1, h2 => by
    rw [lexLe_cons_iff] at h1 h2 ⊢
    rcases h1 with h1 | ⟨rfl, h1⟩
    · rcases h2 with h2 | ⟨rfl, h2⟩
      · exact Or.inl (h1.trans h2)
      · exact Or.inl h1
    · rcases h2 with h2 | ⟨rfl, h2⟩
      · exact Or.inl h2
      · exact Or.inr ⟨rfl, lexLe_trans xs ys zs h1 h2⟩

theorem lexLe_antisymm : ∀ xs ys : List Char,
    lexLe xs ys = true → lexLe ys xs = true → xs = ys
  | [], [], _, _ => rfl
  | [], _ :: _, _, h2 => by simp [lexLe] at h2
  | _ :: _, [], h1, _ => by simp [lexLe] at h1
  | x :: xs, y :: ys, h1, h2 => by
    rw [lexLe_cons_iff] at h1 h2
    rcases h1 with h1 | ⟨rfl, h1⟩
    · rcases h2 with h2 | ⟨rfl, h2⟩
      · exact absurd (h1.trans h2) (lt_irrefl _)
      · exact absurd h1 (lt_irrefl _)
    · rcases h2 with h2 | ⟨_, h2⟩
      · exact absurd h2 (lt_irrefl _)
      · rw [lexLe_antisymm xs ys h1 h2]

theorem strLe_total (a b : String) : strLe a b = true ∨ strLe b a = true :=
  lexLe_total a.data b.data

theorem strLe_trans {a b c : String} (h1 : strLe a b = true) (h2 : strLe b c = true) :
    strLe a c = true :=
  lexLe_trans a.data b.data c.data h1 h2

theorem strLe_antisymm {a b : String} (h1 : strLe a b = true) (h2 : strLe b a = true) :
    a = b := by
  cases a with
  | mk da =>
    cases b with
    | mk db =>
      exact congrArg String.mk (lexLe_antisymm da db h1 h2)

theorem strLe_refl (a : String) : strLe a a = true :=
  (strLe_total a a).elim id id

/-! ## Properties of the modelled Python sorts -/

theorem stringSort_perm (l : List String) : stringSort l ~ l :=
  List.perm_insertionSort _ l

theorem mem_stringSort {n : String} {l : List String} : n ∈ stringSort l ↔ n ∈ l :=
  (stringSort_perm l).mem_iff

theorem stringSort_sorted (l : List String) :
    (stringSort l).Sorted (fun a b => strLe a b = true) := by
  haveI : IsTotal String (fun a b => strLe a b = true) := ⟨strLe_total⟩
  haveI : IsTrans String (fun a b => strLe a b = true) := ⟨fun _ _ _ => strLe_trans⟩
  exact List.sorted_insertionSort _ l

theorem stringSort_nodup {l : List String} (h : l.Nodup) : (stringSort l).Nodup :=
  (stringSort_perm l).nodup_iff.mpr h

theorem stringSort_eq_of_perm {l₁ l₂ : List String} (h : l₁ ~ l₂) :
    stringSort l₁ = stringSort l₂ := by
  haveI : IsAntisymm String (fun a b => strLe a b = true) := ⟨fun _ _ => strLe_antisymm⟩
  exact List.eq_of_perm_of_sorted
    ((stringSort_perm l₁).trans (h.trans (stringSort_perm l₂).symm))
    (stringSort_sorted l₁) (stringSort_sorted l₂)

theorem displaySort_perm (files : List (String × String)) : displaySort files ~ files :=
  List.perm_insertionSort _ files

theorem displaySort_sorted (files : List (String × String)) :
    (displaySort files).Sorted
      (fun x y => strLe (presentName x) (presentName y) = true) := by
  haveI : IsTotal (String × String)
      (fun x y => strLe (presentName x) (presentName y) = true) :=
    ⟨fun x y => strLe_total _ _⟩
  haveI : IsTrans (String × String)
      (fun x y => strLe (presentName x) (presentName y) = true) :=
    ⟨fun _ _ _ => strLe_trans⟩
  exact List.sorted_insertionSort _ files

/-! ## Association list lookups -/

theorem lookup_some_mem_keys {β : Type} {l : List (String × β)} {a : String} {b : β}
    (h : l.lookup a = some b) : a ∈ l.map Prod.fst := by
  induction l with
  | nil => simp at h
  | cons p t ih =>
    obtain ⟨k, v⟩ := p
    rw [List.lookup_cons] at h
    cases hbeq : (a == k) with
    | true =>
      have ha : a = k := eq_of_beq hbeq
      simp [ha]
    | false =>
      rw [hbeq] at h
      simp only [List.map_cons, List.mem_cons]
      exact Or.inr (ih h)

theorem lookup_some_mem {β : Type} {l : List (String × β)} {a : String} {b : β}
    (h : l.lookup a = some b) : (a, b) ∈ l := by
  induction l with
  | nil => simp at h
  | cons p t ih =>
    obtain ⟨k, v⟩ := p
    rw [List.lookup_cons] at h
    cases hbeq : (a == k) with
    | true =>
      rw [hbeq] at h
      have ha : a = k := eq_of_beq hbeq
      have hv : v = b := by injection h
      subst ha
      subst hv
      exact List.mem_cons_self _ _
    | false =>
      rw [hbeq] at h
      exact List.mem_cons_of_mem _ (ih h)

theorem mem_keys_lookup {β : Type} {l : List (String × β)} {a : String}
    (h : a ∈ l.map Prod.fst) : ∃ b, l.lookup a = some b := by
  induction l with
  | nil => simp at h
  | cons p t ih =>
    obtain ⟨k, v⟩ := p
    by_cases hk : a = k
    · subst hk
      exact ⟨v, by rw [List.lookup_cons, beq_self_eq_true]⟩
    · have hbeq : (a == k) = false := beq_eq_false_iff_ne.mpr hk
      rw [List.map_cons, List.mem_cons] at h
      rcases h with h | h
      · exact absurd h hk
      · rcases ih h with ⟨b, hb⟩
        exact ⟨b, by rw [List.lookup_cons, hbeq]; exact hb⟩

/-! ## Membership in the directory comparison -/

theorem mem_dircmpFilter {n : String} {names : List String} :
    n ∈ dircmpFilter names ↔ n ∈ names ∧ n ∉ HIDE ++ DEFAULT_IGNORES := by
  simp [dircmpFilter, List.mem_filter]

theorem mem_dircmp_left_only {a b : Directory} {n : String} :
    n ∈ (dircmp a b).left_only ↔
      n ∈ listdir a ∧ n ∉ HIDE ++ DEFAULT_IGNORES ∧ n ∉ listdir b := by
  simp only [dircmp, List.mem_filter, mem_stringSort, mem_dircmpFilter,
    decide_eq_true_eq]
  constructor
  · rintro ⟨⟨h1, h2⟩, h3⟩
    exact ⟨h1, h2, fun hb => h3 ⟨hb, h2⟩⟩
  · rintro ⟨h1, h2, h3⟩
    exact ⟨⟨h1, h2⟩, fun hb => h3 hb.1⟩

theorem mem_dircmp_right_only {a b : Directory} {n : String} :
    n ∈ (dircmp a b).right_only ↔
      n ∈ listdir b ∧ n ∉ HIDE ++ DEFAULT_IGNORES ∧ n ∉ listdir a := by
  simp only [dircmp, List.mem_filter, mem_stringSort, mem_dircmpFilter,
    decide_eq_true_eq]
  constructor
  · rintro ⟨⟨h1, h2⟩, h3⟩
    exact ⟨h1, h2, fun ha => h3 ⟨ha, h2⟩⟩
  · rintro ⟨h1, h2, h3⟩
    exact ⟨⟨h1, h2⟩, fun ha => h3 ha.1⟩

theorem mem_dircmp_diff_files {a b : Directory} {n : String} :
    n ∈ (dircmp a b).diff_files ↔
      n ∈ listdir a ∧ n ∈ listdir b ∧ n ∉ HIDE ++ DEFAULT_IGNORES ∧
        isDiffFile a b n = true := by
  simp only [dircmp, List.mem_filter, mem_stringSort, mem_dircmpFilter,
    decide_eq_true_eq]
  tauto

/-! ## Structure of the comparison report -/

theorem mem_appEntriesOf_both {sa sb : Snapshot} {app : String} {aDir bDir : Directory}
    {e : String × String}
    (ha : sa.lookup app = some aDir) (hb : sb.lookup app = some bDir) :
    e ∈ appEntriesOf sa sb app ↔
      (∃ f ∈ (dircmp aDir bDir).left_only, e = (f, DjangoMigrationsDiff.empty)) ∨
      (∃ f ∈ (dircmp aDir bDir).right_only, e = (DjangoMigrationsDiff.empty, f)) ∨
      (∃ f ∈ (dircmp aDir bDir).diff_files, e = (f, f)) := by
  simp only [appEntriesOf, ha, hb, List.mem_append, List.mem_map]
  constructor
  · rintro ((⟨f, hf, rfl⟩ | ⟨f, hf, rfl⟩) | ⟨f, hf, rfl⟩)
    · exact Or.inl ⟨f, hf, rfl⟩
    · exact Or.inr (Or.inl ⟨f, hf, rfl⟩)
    · exact Or.inr (Or.inr ⟨f, hf, rfl⟩)
  · rintro (⟨f, hf, rfl⟩ | ⟨f, hf, rfl⟩ | ⟨f, hf, rfl⟩)
    · exact Or.inl (Or.inl ⟨f, hf, rfl⟩)
    · exact Or.inl (Or.inr ⟨f, hf, rfl⟩)
    · exact Or.inr ⟨f, hf, rfl⟩

theorem mem_comparisonOf {sa sb : Snapshot} {p : String × List (String × String)} :
    p ∈ comparisonOf sa sb ↔
      p.1 ∈ sortedApps sa sb ∧ p.2 = appEntriesOf sa sb p.1 ∧ p.2 ≠ [] := by
  obtain ⟨app, files⟩ := p
  simp only [comparisonOf, List.mem_filter, List.mem_map]
  constructor
  · rintro ⟨⟨a, ha, heq⟩, hne⟩
    obtain ⟨rfl, rfl⟩ := Prod.mk.injEq .. ▸ And.intro (congrArg Prod.fst heq.symm)
      (congrArg Prod.snd heq.symm)
    · refine ⟨ha, rfl, ?_⟩
      simpa using hne
  · rintro ⟨h1, h2, h3⟩
    subst h2
    refine ⟨⟨app, h1, rfl⟩, ?_⟩
    simpa using h3

theorem mem_sortedApps {sa sb : Snapshot} {app : String} :
    app ∈ sortedApps sa sb ↔ app ∈ snapshotListdir sa ++ snapshotListdir sb := by
  rw [sortedApps, mem_stringSort, List.mem_dedup]

theorem sortedApps_nodup (sa sb : Snapshot) : (sortedApps sa sb).Nodup :=
  stringSort_nodup (List.nodup_dedup _)

theorem comparisonOf_keys_sublist (sa sb : Snapshot) :
    (comparisonOf sa sb).map Prod.fst <+ sortedApps sa sb := by
  have h1 : comparisonOf sa sb <+
      (sortedApps sa sb).map (fun app => (app, appEntriesOf sa sb app)) :=
    List.filter_sublist _
  have h2 := h1.map Prod.fst
  rw [List.map_map] at h2
  have h3 : (Prod.fst ∘ fun app => (app, appEntriesOf sa sb app)) = id := rfl
  rw [h3, List.map_id] at h2
  exact h2

/-! ## Shallow comparison and swap symmetry -/

theorem shallowSame_self (f : FSFile) : shallowSame f f = true := by
  simp [shallowSame]

theorem shallowSame_comm (fa fb : FSFile) : shallowSame fa fb = shallowSame fb fa := by
  unfold shallowSame
  congr 1
  · congr 1 <;> rw [decide_eq_decide] <;> exact eq_comm
  · rw [decide_eq_decide]
    exact eq_comm

theorem isDiffFile_self (d : Directory) (n : String) : isDiffFile d d n = false := by
  rw [isDiffFile]
  cases hld : d.lookup n with
  | none => rfl
  | some e =>
    cases e with
    | file f => simp [shallowSame_self]
    | dir sub => rfl
    | funny => rfl

theorem isDiffFile_swap (a b : Directory) (n : String) :
    isDiffFile b a n = isDiffFile a b n := by
  rw [isDiffFile, isDiffFile]
  cases ha : a.lookup n with
  | none => cases hb : b.lookup n with
    | none => rfl
    | some eb => cases eb <;> rfl
  | some ea =>
    cases hb : b.lookup n with
    | none => cases ea <;> rfl
    | some eb =>
      cases ea <;> cases eb <;> simp [shallowSame_comm]

theorem dircmp_left_only_swap (a b : Directory) :
    (dircmp b a).left_only = (dircmp a b).right_only := rfl

theorem dircmp_right_only_swap (a b : Directory) :
    (dircmp b a).right_only = (dircmp a b).left_only := rfl

theorem dircmp_diff_files_swap {a b : Directory}
    (hna : (listdir a).Nodup) (hnb : (listdir b).Nodup) :
    (dircmp b a).diff_files = (dircmp a b).diff_files := by
  haveI : IsAntisymm String (fun x y => strLe x y = true) := ⟨fun _ _ => strLe_antisymm⟩
  have hs1 : ((dircmp b a).diff_files).Sorted (fun x y => strLe x y = true) :=
    List.Pairwise.filter _ (List.Pairwise.filter _ (stringSort_sorted _))
  have hs2 : ((dircmp a b).diff_files).Sorted (fun x y => strLe x y = true) :=
    List.Pairwise.filter _ (List.Pairwise.filter _ (stringSort_sorted _))
  have hn1 : ((dircmp b a).diff_files).Nodup :=
    List.Nodup.filter _ (List.Nodup.filter _ (stringSort_nodup (hnb.filter _)))
  have hn2 : ((dircmp a b).diff_files).Nodup :=
    List.Nodup.filter _ (List.Nodup.filter _ (stringSort_nodup (hna.filter _)))
  refine List.eq_of_perm_of_sorted ?_ hs1 hs2
  rw [List.perm_ext_iff_of_nodup hn1 hn2]
  intro n
  rw [mem_dircmp_diff_files, mem_dircmp_diff_files, isDiffFile_swap]
  tauto

theorem swap_pair_mem_map_iff {x : String × String} {l : List (String × String)} :
    x ∈ l.map Prod.swap ↔ x.swap ∈ l := by
  rw [List.mem_map]
  constructor
  · rintro ⟨p, hp, rfl⟩
    simpa [Prod.swap_swap] using hp
  · intro h
    exact ⟨x.swap, h, Prod.swap_swap x⟩

theorem isEmpty_false_of_ne_nil {α : Type} {l : List α} (h : l ≠ []) :
    l.isEmpty = false := by
  cases l with
  | nil => exact absurd rfl h
  | cons a t => rfl

theorem map_fst_filter_nonempty_congr {l : List String}
    {e1 e2 : String → List (String × String)}
    (h : ∀ a ∈ l, (e1 a = [] ↔ e2 a = [])) :
    ((l.map (fun a => (a, e1 a))).filter (fun p => !p.2.isEmpty)).map Prod.fst
      = ((l.map (fun a => (a, e2 a))).filter (fun p => !p.2.isEmpty)).map Prod.fst := by
  induction l with
  | nil => rfl
  | cons a t ih =>
    have hiff := h a (List.mem_cons_self ..)
    have iht := ih (fun x hx => h x (List.mem_cons_of_mem _ hx))
    simp only [List.map_cons, List.filter_cons]
    by_cases h1 : e1 a = []
    · have h2 : e2 a = [] := hiff.mp h1
      rw [h1, h2]
      exact iht
    · have h2 : e2 a ≠ [] := fun hh => h1 (hiff.mpr hh)
      rw [isEmpty_false_of_ne_nil h1, isEmpty_false_of_ne_nil h2]
      rw [if_pos (show (!false) = true from rfl), if_pos (show (!false) = true from rfl),
        List.map_cons, List.map_cons, iht]

/-! ## Claim theorems -/

/-- C9: a comparison request naming more than two snapshots is rejected with
the user-facing refusal before any comparison is performed — the result is
the refusal whatever the snapshot store holds, so the core never compares
more than two snapshots. -/
theorem c9_more_than_two_rejected (store : SnapshotStore) (names : List String)
    (h : 2 < names.length) :
    compare_snapshots store names = CompareResult.tooMany := by
  have hlen : (names.map escape_characters).length > 2 := by
    rw [List.length_map]
    exact h
  simp only [compare_snapshots]
  rw [if_pos hlen]

/-- Witness for C9 at a concrete three-name request. -/
theorem c9_witness :
    2 < (["a", "b", "c"] : List String).length
    ∧ compare_snapshots [] ["a", "b", "c"] = CompareResult.tooMany :=
  ⟨by decide, c9_more_than_two_rejected [] ["a", "b", "c"] (by decide)⟩

/-- C4: when at least one of the two named snapshot roots does not exist in
the store, the comparison fails with the missing-snapshot error naming a
snapshot that is indeed missing, and no report is produced (the outcome is
the error, not a table). -/
theorem c4_missing_snapshot_fails (store : SnapshotStore) (na nb : String)
    (h : store.lookup (escape_characters na) = none ∨
         store.lookup (escape_characters nb) = none) :
    ∃ m, compare_snapshots store [na, nb]
        = CompareResult.err (MdiffError.snapshotNotFound m)
      ∧ store.lookup m = none := by
  cases h1 : store.lookup (escape_characters na) with
  | none =>
    refine ⟨escape_characters na, ?_, h1⟩
    simp [compare_snapshots, comparison, h1]
  | some sa =>
    have h2 : store.lookup (escape_characters nb) = none := by
      rcases h with h | h
      · rw [h1] at h
        exact absurd h (by simp)
      · exact h
    refine ⟨escape_characters nb, ?_, h2⟩
    simp [compare_snapshots, comparison, h1, h2]

/-- Witness for C4 at a concrete store and names. -/
theorem c4_witness :
    (([("other", [])] : SnapshotStore).lookup (escape_characters "dev") = none
      ∨ ([("other", [])] : SnapshotStore).lookup (escape_characters "master") = none)
    ∧ ∃ m, compare_snapshots [("other", [])] ["dev", "master"]
          = CompareResult.err (MdiffError.snapshotNotFound m)
        ∧ ([("other", [])] : SnapshotStore).lookup m = none :=
  ⟨by decide, c4_missing_snapshot_fails [("other", [])] "dev" "master" (by decide)⟩

/-- C7: a component directory existing in exactly one snapshot contributes
every name listed directly inside it as a one-sided entry paired with the
sentinel; the result is exactly the full unfiltered listing, so no
directory comparison and no name matching against the other snapshot
takes place. -/
theorem c7_one_sided_component (sa sb : Snapshot) (app : String) (d : Directory) :
    (sa.lookup app = some d → sb.lookup app = none →
      appEntriesOf sa sb app
        = (listdir d).map (fun f => (f, DjangoMigrationsDiff.empty)))
    ∧ (sa.lookup app = none → sb.lookup app = some d →
      appEntriesOf sa sb app
        = (listdir d).map (fun f => (DjangoMigrationsDiff.empty, f))) := by
  constructor
  · intro h1 h2
    simp [appEntriesOf, h1, h2]
  · intro h1 h2
    simp [appEntriesOf, h1, h2]

/-- Witness for C7: a component present only on the left emits all its
names one-sidedly, a subdirectory and an ignored name included. -/
theorem c7_witness :
    appEntriesOf
        [("users", [("x.py", FSEntry.file ⟨[1], 0⟩), ("y.py", FSEntry.file ⟨[2], 0⟩),
          ("__pycache__", FSEntry.dir [])])]
        [] "users"
      = [("x.py", "---"), ("y.py", "---"), ("__pycache__", "---")] :=
  (c7_one_sided_component
    [("users", [("x.py", FSEntry.file ⟨[1], 0⟩), ("y.py", FSEntry.file ⟨[2], 0⟩),
      ("__pycache__", FSEntry.dir [])])]
    [] "users"
    [("x.py", FSEntry.file ⟨[1], 0⟩), ("y.py", FSEntry.file ⟨[2], 0⟩),
      ("__pycache__", FSEntry.dir [])]).1 rfl rfl

/-- C3: a component name is a key of the comparison report only when its
entry list is non-empty; the entry list of a key is exactly what the
engine computed for that component, and a component whose computed entry
list is empty — identical directories, or an empty one-sided directory —
is absent from the report. -/
theorem c3_nonempty_components_only (sa sb : Snapshot) :
    (∀ p ∈ comparisonOf sa sb, p.2 ≠ [] ∧ p.2 = appEntriesOf sa sb p.1)
    ∧ (∀ app, appEntriesOf sa sb app = [] →
        app ∉ (comparisonOf sa sb).map Prod.fst) := by
  constructor
  · intro p hp
    rw [mem_comparisonOf] at hp
    exact ⟨hp.2.2, hp.2.1⟩
  · intro app hnil hmem
    rw [List.mem_map] at hmem
    obtain ⟨p, hp, rfl⟩ := hmem
    rw [mem_comparisonOf] at hp
    exact hp.2.2 (hp.2.1.trans hnil)

/-- Witness for C3: a differing component is a key with its non-empty
entries; a component identical on both sides is absent. -/
theorem c3_witness :
    (("users", [("a.py", "a.py")]) ∈
        comparisonOf
          [("users", [("a.py", FSEntry.file ⟨[0], 0⟩)]),
            ("orders", [("b.py", FSEntry.file ⟨[5], 5⟩)])]
          [("users", [("a.py", FSEntry.file ⟨[1], 1⟩)]),
            ("orders", [("b.py", FSEntry.file ⟨[5], 5⟩)])]
      ∧ ([("a.py", "a.py")] : List (String × String)) ≠ []
        ∧ [("a.py", "a.py")]
          = appEntriesOf
              [("users", [("a.py", FSEntry.file ⟨[0], 0⟩)]),
                ("orders", [("b.py", FSEntry.file ⟨[5], 5⟩)])]
              [("users", [("a.py", FSEntry.file ⟨[1], 1⟩)]),
                ("orders", [("b.py", FSEntry.file ⟨[5], 5⟩)])]
              "users")
    ∧ (appEntriesOf
          [("users", [("a.py", FSEntry.file ⟨[0], 0⟩)]),
            ("orders", [("b.py", FSEntry.file ⟨[5], 5⟩)])]
          [("users", [("a.py", FSEntry.file ⟨[1], 1⟩)]),
            ("orders", [("b.py", FSEntry.file ⟨[5], 5⟩)])]
          "orders" = []
      ∧ "orders" ∉
          (comparisonOf
            [("users", [("a.py", FSEntry.file ⟨[0], 0⟩)]),
              ("orders", [("b.py", FSEntry.file ⟨[5], 5⟩)])]
            [("users", [("a.py", FSEntry.file ⟨[1], 1⟩)]),
              ("orders", [("b.py", FSEntry.file ⟨[5], 5⟩)])]).map Prod.fst) :=
  ⟨⟨by decide,
    (c3_nonempty_components_only _ _).1 ("users", [("a.py", "a.py")]) (by decide)⟩,
   by decide,
   (c3_nonempty_components_only _ _).2 "orders" (by decide)⟩

/-- C5: comparing a snapshot against an identical copy of itself yields the
empty report, and the outcome of the comparison command is the
"snapshots are equal" message; a snapshot with no components at all is a
special case. -/
theorem c5_self_comparison_equal (store : SnapshotStore) (na nb : String) (s : Snapshot)
    (ha : store.lookup (escape_characters na) = some s)
    (hb : store.lookup (escape_characters nb) = some s) :
    comparisonOf s s = [] ∧ compare_snapshots store [na, nb] = CompareResult.equal := by
  have key : ∀ app ∈ sortedApps s s, appEntriesOf s s app = [] := by
    intro app happ
    have hk : app ∈ snapshotListdir s := by
      rw [mem_sortedApps, List.mem_append] at happ
      exact happ.elim id id
    obtain ⟨d, hd⟩ := mem_keys_lookup hk
    have h1 : (dircmp d d).left_only = [] := by
      rw [List.eq_nil_iff_forall_not_mem]
      intro n hn
      rw [mem_dircmp_left_only] at hn
      exact hn.2.2 hn.1
    have h2 : (dircmp d d).right_only = [] := by
      rw [List.eq_nil_iff_forall_not_mem]
      intro n hn
      rw [mem_dircmp_right_only] at hn
      exact hn.2.2 hn.1
    have h3 : (dircmp d d).diff_files = [] := by
      rw [List.eq_nil_iff_forall_not_mem]
      intro n hn
      rw [mem_dircmp_diff_files] at hn
      have hd3 := hn.2.2.2
      rw [isDiffFile_self] at hd3
      exact Bool.false_ne_true hd3
    simp [appEntriesOf, hd, h1, h2, h3]
  have hcmp : comparisonOf s s = [] := by
    rw [comparisonOf, List.eq_nil_iff_forall_not_mem]
    intro p hp
    rw [List.mem_filter] at hp
    obtain ⟨hp1, hp2⟩ := hp
    rw [List.mem_map] at hp1
    obtain ⟨app, happ, rfl⟩ := hp1
    simp [key app happ] at hp2
  refine ⟨hcmp, ?_⟩
  simp [compare_snapshots, comparison, ha, hb, hcmp]

/-- Witness for C5 at a concrete store holding one snapshot compared with
itself. -/
theorem c5_witness :
    (([("dev", [("users", [("0001_initial.py", FSEntry.file ⟨[10, 20], 3⟩)])])]
        : SnapshotStore).lookup (escape_characters "dev")
      = some [("users", [("0001_initial.py", FSEntry.file ⟨[10, 20], 3⟩)])])
    ∧ (comparisonOf [("users", [("0001_initial.py", FSEntry.file ⟨[10, 20], 3⟩)])]
          [("users", [("0001_initial.py", FSEntry.file ⟨[10, 20], 3⟩)])] = []
      ∧ compare_snapshots
          [("dev", [("users", [("0001_initial.py", FSEntry.file ⟨[10, 20], 3⟩)])])]
          ["dev", "dev"] = CompareResult.equal) :=
  ⟨by decide,
   c5_self_comparison_equal
     [("dev", [("users", [("0001_initial.py", FSEntry.file ⟨[10, 20], 3⟩)])])]
     "dev" "dev"
     [("users", [("0001_initial.py", FSEntry.file ⟨[10, 20], 3⟩)])]
     (by decide) (by decide)⟩

/-- C2: the report lists components in sorted lexicographic order drawn
from the union of the two snapshot roots' child names, and each displayed
component's entries are sorted by the present name — the left name when it
is not the sentinel, otherwise the right name. -/
theorem c2_report_ordering (sa sb : Snapshot) :
    ((comparisonOf sa sb).map Prod.fst).Sorted (fun a b => strLe a b = true)
    ∧ (∀ app ∈ (comparisonOf sa sb).map Prod.fst,
        app ∈ snapshotListdir sa ++ snapshotListdir sb)
    ∧ (∀ p ∈ renderedOf sa sb,
        (p.2.map presentName).Sorted (fun a b => strLe a b = true)
        ∧ p.2 ~ appEntriesOf sa sb p.1) := by
  refine ⟨?_, ?_, ?_⟩
  · exact List.Pairwise.sublist (comparisonOf_keys_sublist sa sb) (stringSort_sorted _)
  · intro app happ
    exact mem_sortedApps.mp ((comparisonOf_keys_sublist sa sb).subset happ)
  · intro p hp
    rw [renderedOf, List.mem_map] at hp
    obtain ⟨q, hq, rfl⟩ := hp
    rw [mem_comparisonOf] at hq
    constructor
    · exact List.pairwise_map.mpr (displaySort_sorted q.2)
    · show displaySort q.2 ~ appEntriesOf sa sb q.1
      rw [← hq.2.1]
      exact displaySort_perm q.2

/-- Witness for C2 at the spec's ordering example: components zeta and
alpha, a one-sided and a content-diff entry inside alpha. -/
theorem c2_witness :
    ("zeta" ∈
        (comparisonOf
          [("zeta", [("0002_x.py", FSEntry.file ⟨[1], 1⟩)]),
            ("alpha", [("0002_x.py", FSEntry.file ⟨[1], 1⟩),
              ("0001_y.py", FSEntry.file ⟨[2], 2⟩)])]
          [("alpha", [("0001_y.py", FSEntry.file ⟨[3], 3⟩)])]).map Prod.fst
      ∧ "zeta" ∈
        snapshotListdir
            [("zeta", [("0002_x.py", FSEntry.file ⟨[1], 1⟩)]),
              ("alpha", [("0002_x.py", FSEntry.file ⟨[1], 1⟩),
                ("0001_y.py", FSEntry.file ⟨[2], 2⟩)])]
          ++ snapshotListdir [("alpha", [("0001_y.py", FSEntry.file ⟨[3], 3⟩)])])
    ∧ (("alpha", [("0001_y.py", "0001_y.py"), ("0002_x.py", "---")]) ∈
        renderedOf
          [("zeta", [("0002_x.py", FSEntry.file ⟨[1], 1⟩)]),
            ("alpha", [("0002_x.py", FSEntry.file ⟨[1], 1⟩),
              ("0001_y.py", FSEntry.file ⟨[2], 2⟩)])]
          [("alpha", [("0001_y.py", FSEntry.file ⟨[3], 3⟩)])]
      ∧ (([("0001_y.py", "0001_y.py"), ("0002_x.py", "---")].map presentName).Sorted
          (fun a b => strLe a b = true)
        ∧ [("0001_y.py", "0001_y.py"), ("0002_x.py", "---")] ~
            appEntriesOf
              [("zeta", [("0002_x.py", FSEntry.file ⟨[1], 1⟩)]),
                ("alpha", [("0002_x.py", FSEntry.file ⟨[1], 1⟩),
                  ("0001_y.py", FSEntry.file ⟨[2], 2⟩)])]
              [("alpha", [("0001_y.py", FSEntry.file ⟨[3], 3⟩)])]
              "alpha")) :=
  ⟨⟨by decide,
    (c2_report_ordering
        [("zeta", [("0002_x.py", FSEntry.file ⟨[1], 1⟩)]),
          ("alpha", [("0002_x.py", FSEntry.file ⟨[1], 1⟩),
            ("0001_y.py", FSEntry.file ⟨[2], 2⟩)])]
        [("alpha", [("0001_y.py", FSEntry.file ⟨[3], 3⟩)])]).2.1 "zeta" (by decide)⟩,
   by decide,
   (c2_report_ordering
      [("zeta", [("0002_x.py", FSEntry.file ⟨[1], 1⟩)]),
        ("alpha", [("0002_x.py", FSEntry.file ⟨[1], 1⟩),
          ("0001_y.py", FSEntry.file ⟨[2], 2⟩)])]
      [("alpha", [("0001_y.py", FSEntry.file ⟨[3], 3⟩)])]).2.2
     ("alpha", [("0001_y.py", "0001_y.py"), ("0002_x.py", "---")]) (by decide)⟩

/-- C10: a name present in both component directories that is a
subdirectory on both sides, or an entry whose stat fails on either side,
produces no entry at all for that name — such differences are silently
absent from the report rather than reported or raised. -/
theorem c10_non_regular_common_silent (sa sb : Snapshot) (app n : String)
    (aDir bDir : Directory) (ea eb : FSEntry)
    (hsa : sa.lookup app = some aDir) (hsb : sb.lookup app = some bDir)
    (ha : aDir.lookup n = some ea) (hb : bDir.lookup n = some eb)
    (hcase : (∃ u v, ea = FSEntry.dir u ∧ eb = FSEntry.dir v)
      ∨ ea = FSEntry.funny ∨ eb = FSEntry.funny) :
    (n, n) ∉ appEntriesOf sa sb app
    ∧ (n, DjangoMigrationsDiff.empty) ∉ appEntriesOf sa sb app
    ∧ (DjangoMigrationsDiff.empty, n) ∉ appEntriesOf sa sb app := by
  have hdiff : isDiffFile aDir bDir n = false := by
    simp only [isDiffFile, ha, hb]
    rcases hcase with ⟨u, v, rfl, rfl⟩ | rfl | rfl
    · rfl
    · rfl
    · cases ea <;> rfl
  have hmemA : n ∈ listdir aDir := lookup_some_mem_keys ha
  have hmemB : n ∈ listdir bDir := lookup_some_mem_keys hb
  refine ⟨?_, ?_, ?_⟩
  · intro hmem
    rw [mem_appEntriesOf_both hsa hsb] at hmem
    rcases hmem with ⟨f, hf, he⟩ | ⟨f, hf, he⟩ | ⟨f, hf, he⟩
    · have h1 : f = n := (congrArg Prod.fst he).symm
      subst h1
      rw [mem_dircmp_left_only] at hf
      exact hf.2.2 hmemB
    · have h1 : f = n := (congrArg Prod.snd he).symm
      subst h1
      rw [mem_dircmp_right_only] at hf
      exact hf.2.2 hmemA
    · have h1 : f = n := (congrArg Prod.fst he).symm
      subst h1
      rw [mem_dircmp_diff_files] at hf
      have h2 := hf.2.2.2
      rw [hdiff] at h2
      exact Bool.false_ne_true h2
  · intro hmem
    rw [mem_appEntriesOf_both hsa hsb] at hmem
    rcases hmem with ⟨f, hf, he⟩ | ⟨f, hf, he⟩ | ⟨f, hf, he⟩
    · have h1 : f = n := (congrArg Prod.fst he).symm
      subst h1
      rw [mem_dircmp_left_only] at hf
      exact hf.2.2 hmemB
    · have h1 : n = DjangoMigrationsDiff.empty := congrArg Prod.fst he
      have h2 : DjangoMigrationsDiff.empty = f := congrArg Prod.snd he
      have h3 : f = n := (h1.trans h2).symm
      subst h3
      rw [mem_dircmp_right_only] at hf
      exact hf.2.2 hmemA
    · have h1 : f = n := (congrArg Prod.fst he).symm
      subst h1
      rw [mem_dircmp_diff_files] at hf
      have h2 := hf.2.2.2
      rw [hdiff] at h2
      exact Bool.false_ne_true h2
  · intro hmem
    rw [mem_appEntriesOf_both hsa hsb] at hmem
    rcases hmem with ⟨f, hf, he⟩ | ⟨f, hf, he⟩ | ⟨f, hf, he⟩
    · have h1 : n = DjangoMigrationsDiff.empty := congrArg Prod.snd he
      have h2 : DjangoMigrationsDiff.empty = f := congrArg Prod.fst he
      have h3 : f = n := (h1.trans h2).symm
      subst h3
      rw [mem_dircmp_left_only] at hf
      exact hf.2.2 hmemB
    · have h1 : f = n := (congrArg Prod.snd he).symm
      subst h1
      rw [mem_dircmp_right_only] at hf
      exact hf.2.2 hmemA
    · have h1 : f = n := (congrArg Prod.snd he).symm
      subst h1
      rw [mem_dircmp_diff_files] at hf
      have h2 := hf.2.2.2
      rw [hdiff] at h2
      exact Bool.false_ne_true h2

/-- Witness for C10: a subdirectory common to both sides whose one-level
contents differ is nonetheless absent from the entries. -/
theorem c10_witness :
    (([("app", [("state", FSEntry.dir [("x", ⟨[1], 0⟩)])])] : Snapshot).lookup "app"
        = some [("state", FSEntry.dir [("x", ⟨[1], 0⟩)])]
      ∧ ([("app", [("state", FSEntry.dir [("y", ⟨[2], 9⟩)])])] : Snapshot).lookup "app"
        = some [("state", FSEntry.dir [("y", ⟨[2], 9⟩)])]
      ∧ [("x", (⟨[1], 0⟩ : FSFile))] ≠ [("y", (⟨[2], 9⟩ : FSFile))])
    ∧ (("state", "state") ∉
        appEntriesOf [("app", [("state", FSEntry.dir [("x", ⟨[1], 0⟩)])])]
          [("app", [("state", FSEntry.dir [("y", ⟨[2], 9⟩)])])] "app"
      ∧ ("state", DjangoMigrationsDiff.empty) ∉
        appEntriesOf [("app", [("state", FSEntry.dir [("x", ⟨[1], 0⟩)])])]
          [("app", [("state", FSEntry.dir [("y", ⟨[2], 9⟩)])])] "app"
      ∧ (DjangoMigrationsDiff.empty, "state") ∉
        appEntriesOf [("app", [("state", FSEntry.dir [("x", ⟨[1], 0⟩)])])]
          [("app", [("state", FSEntry.dir [("y", ⟨[2], 9⟩)])])] "app") :=
  ⟨by decide,
   c10_non_regular_common_silent
     [("app", [("state", FSEntry.dir [("x", ⟨[1], 0⟩)])])]
     [("app", [("state", FSEntry.dir [("y", ⟨[2], 9⟩)])])]
     "app" "state"
     [("state", FSEntry.dir [("x", ⟨[1], 0⟩)])]
     [("state", FSEntry.dir [("y", ⟨[2], 9⟩)])]
     (FSEntry.dir [("x", ⟨[1], 0⟩)]) (FSEntry.dir [("y", ⟨[2], 9⟩)])
     rfl rfl rfl rfl
     (Or.inl ⟨[("x", ⟨[1], 0⟩)], [("y", ⟨[2], 9⟩)], rfl, rfl⟩)⟩

/-- C8 counterexample: a real file named exactly like the sentinel `---`,
present on one side only, is emitted as the pair `("---", "---")` — both
positions equal the sentinel string, contradicting the claim that never
both names equal the sentinel. -/
theorem c8_counterexample :
    DjangoMigrationsDiff.empty = "---"
    ∧ ("---", "---") ∈
        appEntriesOf [("app", [("---", FSEntry.file ⟨[], 0⟩)])] [("app", [])] "app"
    ∧ ([("app", [("---", FSEntry.file ⟨[], 0⟩)])] : Snapshot).lookup "app"
        = some [("---", FSEntry.file ⟨[], 0⟩)]
    ∧ ([("app", [])] : Snapshot).lookup "app" = some []
    ∧ ([("---", FSEntry.file ⟨[], 0⟩)] : Directory).lookup "---"
        = some (FSEntry.file ⟨[], 0⟩)
    ∧ ([] : Directory).lookup "---" = none := by decide

/-- C8 amended: provided no directory of either snapshot actually contains
an entry named `---`, every emitted pair has at most one side equal to the
sentinel, never both. -/
theorem c8_amended_at_most_one_sentinel (sa sb : Snapshot)
    (hA : ∀ p ∈ sa, DjangoMigrationsDiff.empty ∉ listdir p.2)
    (hB : ∀ p ∈ sb, DjangoMigrationsDiff.empty ∉ listdir p.2) :
    ∀ q ∈ comparisonOf sa sb, ∀ e ∈ q.2,
      ¬(e.1 = DjangoMigrationsDiff.empty ∧ e.2 = DjangoMigrationsDiff.empty) := by
  intro q hq e he hcond
  rw [mem_comparisonOf] at hq
  rw [hq.2.1] at he
  cases ha : sa.lookup q.1 with
  | none =>
    cases hb : sb.lookup q.1 with
    | none =>
      simp only [appEntriesOf, ha, hb] at he
      exact absurd he (List.not_mem_nil e)
    | some bd =>
      simp only [appEntriesOf, ha, hb, List.mem_map] at he
      obtain ⟨f, hf, rfl⟩ := he
      exact hB _ (lookup_some_mem hb) (hcond.2 ▸ hf)
  | some ad =>
    cases hb : sb.lookup q.1 with
    | none =>
      simp only [appEntriesOf, ha, hb, List.mem_map] at he
      obtain ⟨f, hf, rfl⟩ := he
      exact hA _ (lookup_some_mem ha) (hcond.1 ▸ hf)
    | some bd =>
      rw [mem_appEntriesOf_both ha hb] at he
      rcases he with ⟨f, hf, rfl⟩ | ⟨f, hf, rfl⟩ | ⟨f, hf, rfl⟩
      · rw [mem_dircmp_left_only] at hf
        exact hA _ (lookup_some_mem ha) (hcond.1 ▸ hf.1)
      · rw [mem_dircmp_right_only] at hf
        exact hB _ (lookup_some_mem hb) (hcond.2 ▸ hf.1)
      · rw [mem_dircmp_diff_files] at hf
        exact hA _ (lookup_some_mem ha) (hcond.1 ▸ hf.1)

/-- Witness for C8 at a concrete pair of snapshots free of `---` names. -/
theorem c8_witness :
    ((∀ p ∈ ([("users", [("a.py", FSEntry.file ⟨[0], 0⟩)])] : Snapshot),
        DjangoMigrationsDiff.empty ∉ listdir p.2)
      ∧ (∀ p ∈ ([("users", []), ("orders", [("b.py", FSEntry.file ⟨[7], 7⟩)])]
          : Snapshot), DjangoMigrationsDiff.empty ∉ listdir p.2))
    ∧ ∀ q ∈ comparisonOf [("users", [("a.py", FSEntry.file ⟨[0], 0⟩)])]
        [("users", []), ("orders", [("b.py", FSEntry.file ⟨[7], 7⟩)])],
        ∀ e ∈ q.2,
          ¬(e.1 = DjangoMigrationsDiff.empty ∧ e.2 = DjangoMigrationsDiff.empty) :=
  ⟨⟨by decide, by decide⟩,
   c8_amended_at_most_one_sentinel
     [("users", [("a.py", FSEntry.file ⟨[0], 0⟩)])]
     [("users", []), ("orders", [("b.py", FSEntry.file ⟨[7], 7⟩)])]
     (by decide) (by decide)⟩

/-- C1 counterexample: the same filename on both sides, byte contents that
differ, but equal size and equal mtime — the shallow signature comparison
of `filecmp` declares the files equal, so no `(name, name)` entry is
emitted, refuting "an entry if and only if the contents differ
byte-for-byte". -/
theorem c1_counterexample :
    ([48] : List Nat) ≠ [49]
    ∧ (⟨[48], 7⟩ : FSFile).mtime = (⟨[49], 7⟩ : FSFile).mtime
    ∧ (⟨[48], 7⟩ : FSFile).contents.length = (⟨[49], 7⟩ : FSFile).contents.length
    ∧ ("0001_initial.py", "0001_initial.py") ∉
        appEntriesOf
          [("users", [("0001_initial.py", FSEntry.file ⟨[48], 7⟩)])]
          [("users", [("0001_initial.py", FSEntry.file ⟨[49], 7⟩)])] "users"
    ∧ comparisonOf
          [("users", [("0001_initial.py", FSEntry.file ⟨[48], 7⟩)])]
          [("users", [("0001_initial.py", FSEntry.file ⟨[49], 7⟩)])] = [] := by
  decide

/-- C1 amended: for a name that is a regular file in both component
directories and not one of `dircmp`'s default-ignored names, a
`(name, name)` entry is emitted iff shallow comparison finds the files
unequal — the signatures (size, mtime) differ and the byte contents
differ; in particular byte-identical files never produce an entry, but
byte-different files whose size and mtime coincide also produce none. -/
theorem c1_amended_diff_entry_iff (sa sb : Snapshot) (app n : String)
    (aDir bDir : Directory) (fa fb : FSFile)
    (hsa : sa.lookup app = some aDir) (hsb : sb.lookup app = some bDir)
    (hfa : aDir.lookup n = some (FSEntry.file fa))
    (hfb : bDir.lookup n = some (FSEntry.file fb))
    (hn : n ∉ HIDE ++ DEFAULT_IGNORES) :
    ((n, n) ∈ appEntriesOf sa sb app ↔ shallowSame fa fb = false)
    ∧ (fa.contents = fb.contents → (n, n) ∉ appEntriesOf sa sb app) := by
  have hiff : (n, n) ∈ appEntriesOf sa sb app ↔ shallowSame fa fb = false := by
    rw [mem_appEntriesOf_both hsa hsb]
    constructor
    · rintro (⟨f, hf, he⟩ | ⟨f, hf, he⟩ | ⟨f, hf, he⟩)
      · have h1 : f = n := (congrArg Prod.fst he).symm
        subst h1
        rw [mem_dircmp_left_only] at hf
        exact absurd (lookup_some_mem_keys hfb) hf.2.2
      · have h1 : f = n := (congrArg Prod.snd he).symm
        subst h1
        rw [mem_dircmp_right_only] at hf
        exact absurd (lookup_some_mem_keys hfa) hf.2.2
      · have h1 : f = n := (congrArg Prod.fst he).symm
        subst h1
        rw [mem_dircmp_diff_files] at hf
        have h2 := hf.2.2.2
        simp only [isDiffFile, hfa, hfb] at h2
        simpa using h2
    · intro hss
      refine Or.inr (Or.inr ⟨n, ?_, rfl⟩)
      rw [mem_dircmp_diff_files]
      refine ⟨lookup_some_mem_keys hfa, lookup_some_mem_keys hfb, hn, ?_⟩
      simp only [isDiffFile, hfa, hfb]
      simp [hss]
  refine ⟨hiff, fun hc => ?_⟩
  rw [hiff]
  simp [shallowSame, hc]

/-- Witness for C1 amended: files differing in bytes and in mtime do get
their `(name, name)` entry. -/
theorem c1_witness :
    (([("users", [("0001_initial.py", FSEntry.file ⟨[48], 1⟩)])] : Snapshot).lookup
        "users" = some [("0001_initial.py", FSEntry.file ⟨[48], 1⟩)]
      ∧ ([("users", [("0001_initial.py", FSEntry.file ⟨[49], 2⟩)])] : Snapshot).lookup
        "users" = some [("0001_initial.py", FSEntry.file ⟨[49], 2⟩)]
      ∧ "0001_initial.py" ∉ HIDE ++ DEFAULT_IGNORES)
    ∧ (("0001_initial.py", "0001_initial.py") ∈
        appEntriesOf
          [("users", [("0001_initial.py", FSEntry.file ⟨[48], 1⟩)])]
          [("users", [("0001_initial.py", FSEntry.file ⟨[49], 2⟩)])] "users"
      ↔ shallowSame ⟨[48], 1⟩ ⟨[49], 2⟩ = false) :=
  ⟨⟨by decide, by decide, by decide⟩,
   (c1_amended_diff_entry_iff
     [("users", [("0001_initial.py", FSEntry.file ⟨[48], 1⟩)])]
     [("users", [("0001_initial.py", FSEntry.file ⟨[49], 2⟩)])]
     "users" "0001_initial.py"
     [("0001_initial.py", FSEntry.file ⟨[48], 1⟩)]
     [("0001_initial.py", FSEntry.file ⟨[49], 2⟩)]
     ⟨[48], 1⟩ ⟨[49], 2⟩ rfl rfl rfl rfl (by decide)).1⟩

/-- C6: swapping the order of the two snapshots flips every entry pair's
positions (up to the report-internal order of one-sided segments), while
the component keys of the report and the affected filenames inside every
component are unchanged. Directory listings are assumed duplicate-free, as
`os.listdir` guarantees. -/
theorem c6_swap_symmetry (sa sb : Snapshot)
    (hwa : ∀ p ∈ sa, (listdir p.2).Nodup)
    (hwb : ∀ p ∈ sb, (listdir p.2).Nodup) :
    ((comparisonOf sb sa).map Prod.fst = (comparisonOf sa sb).map Prod.fst)
    ∧ (∀ app, appEntriesOf sb sa app ~ (appEntriesOf sa sb app).map Prod.swap)
    ∧ (∀ app n,
        ((n, DjangoMigrationsDiff.empty) ∈ appEntriesOf sb sa app
          ↔ (DjangoMigrationsDiff.empty, n) ∈ appEntriesOf sa sb app)
        ∧ ((DjangoMigrationsDiff.empty, n) ∈ appEntriesOf sb sa app
          ↔ (n, DjangoMigrationsDiff.empty) ∈ appEntriesOf sa sb app)
        ∧ ((n, n) ∈ appEntriesOf sb sa app ↔ (n, n) ∈ appEntriesOf sa sb app)) := by
  have hperm : ∀ app, appEntriesOf sb sa app ~ (appEntriesOf sa sb app).map Prod.swap := by
    intro app
    cases ha : sa.lookup app with
    | none =>
      cases hb : sb.lookup app with
      | none =>
        simp only [appEntriesOf, ha, hb, List.map_nil]
        exact List.Perm.refl _
      | some bd =>
        simp only [appEntriesOf, ha, hb, List.map_map]
        have hc : (Prod.swap ∘ fun f : String => (DjangoMigrationsDiff.empty, f))
            = fun f => (f, DjangoMigrationsDiff.empty) := rfl
        rw [hc]
    | some ad =>
      cases hb : sb.lookup app with
      | none =>
        simp only [appEntriesOf, ha, hb, List.map_map]
        have hc : (Prod.swap ∘ fun f : String => (f, DjangoMigrationsDiff.empty))
            = fun f => (DjangoMigrationsDiff.empty, f) := rfl
        rw [hc]
      | some bd =>
        have hna : (listdir ad).Nodup := hwa _ (lookup_some_mem ha)
        have hnb : (listdir bd).Nodup := hwb _ (lookup_some_mem hb)
        simp only [appEntriesOf, ha, hb, List.map_append, List.map_map]
        rw [dircmp_left_only_swap, dircmp_right_only_swap, dircmp_diff_files_swap hna hnb]
        have hc1 : (Prod.swap ∘ fun f : String => (f, DjangoMigrationsDiff.empty))
            = fun f => (DjangoMigrationsDiff.empty, f) := rfl
        have hc2 : (Prod.swap ∘ fun f : String => (DjangoMigrationsDiff.empty, f))
            = fun f => (f, DjangoMigrationsDiff.empty) := rfl
        have hc3 : (Prod.swap ∘ fun f : String => (f, f))
            = fun f : String => (f, f) := rfl
        rw [hc1, hc2, hc3]
        exact (List.perm_append_comm).append_right _
  have hempty : ∀ app, (appEntriesOf sb sa app = [] ↔ appEntriesOf sa sb app = []) := by
    intro app
    constructor
    · intro hnil
      have h := hperm app
      rw [hnil] at h
      have hlen := h.length_eq
      rw [List.length_map] at hlen
      exact List.length_eq_zero.mp hlen.symm
    · intro hnil
      have h := hperm app
      rw [hnil] at h
      exact h.eq_nil
  have happs : sortedApps sb sa = sortedApps sa sb := by
    apply stringSort_eq_of_perm
    rw [List.perm_ext_iff_of_nodup (List.nodup_dedup _) (List.nodup_dedup _)]
    intro a
    simp only [List.mem_dedup, List.mem_append]
    exact or_comm
  refine ⟨?_, hperm, ?_⟩
  · rw [comparisonOf, comparisonOf, happs]
    exact map_fst_filter_nonempty_congr (fun app _ => hempty app)
  · intro app n
    have hmem : ∀ x : String × String,
        x ∈ appEntriesOf sb sa app ↔ x ∈ (appEntriesOf sa sb app).map Prod.swap :=
      fun _ => (hperm app).mem_iff
    refine ⟨?_, ?_, ?_⟩
    · rw [hmem (n, DjangoMigrationsDiff.empty), swap_pair_mem_map_iff]
      exact Iff.rfl
    · rw [hmem (DjangoMigrationsDiff.empty, n), swap_pair_mem_map_iff]
      exact Iff.rfl
    · rw [hmem (n, n), swap_pair_mem_map_iff]
      exact Iff.rfl

/-- Witness for C6 at a concrete asymmetric pair of snapshots. -/
theorem c6_witness :
    ((∀ p ∈ ([("users", [("a.py", FSEntry.file ⟨[0], 0⟩)]), ("extra", [("e.py",
        FSEntry.file ⟨[3], 3⟩)])] : Snapshot), (listdir p.2).Nodup)
      ∧ (∀ p ∈ ([("users", [("a.py", FSEntry.file ⟨[1], 1⟩), ("b.py",
          FSEntry.file ⟨[2], 2⟩)])] : Snapshot), (listdir p.2).Nodup))
    ∧ ((comparisonOf [("users", [("a.py", FSEntry.file ⟨[1], 1⟩), ("b.py",
          FSEntry.file ⟨[2], 2⟩)])]
        [("users", [("a.py", FSEntry.file ⟨[0], 0⟩)]), ("extra", [("e.py",
          FSEntry.file ⟨[3], 3⟩)])]).map Prod.fst
      = (comparisonOf [("users", [("a.py", FSEntry.file ⟨[0], 0⟩)]), ("extra",
          [("e.py", FSEntry.file ⟨[3], 3⟩)])]
        [("users", [("a.py", FSEntry.file ⟨[1], 1⟩), ("b.py",
          FSEntry.file ⟨[2], 2⟩)])]).map Prod.fst)
    ∧ appEntriesOf [("users", [("a.py", FSEntry.file ⟨[1], 1⟩), ("b.py",
          FSEntry.file ⟨[2], 2⟩)])]
        [("users", [("a.py", FSEntry.file ⟨[0], 0⟩)]), ("extra", [("e.py",
          FSEntry.file ⟨[3], 3⟩)])] "users"
      ~ (appEntriesOf [("users", [("a.py", FSEntry.file ⟨[0], 0⟩)]), ("extra",
          [("e.py", FSEntry.file ⟨[3], 3⟩)])]
        [("users", [("a.py", FSEntry.file ⟨[1], 1⟩), ("b.py",
          FSEntry.file ⟨[2], 2⟩)])] "users").map Prod.swap :=
  have h := c6_swap_symmetry
    [("users", [("a.py", FSEntry.file ⟨[0], 0⟩)]), ("extra", [("e.py",
      FSEntry.file ⟨[3], 3⟩)])]
    [("users", [("a.py", FSEntry.file ⟨[1], 1⟩), ("b.py", FSEntry.file ⟨[2], 2⟩)])]
    (by decide) (by decide)
  ⟨⟨by decide, by decide⟩, h.1, h.2.1 "users"⟩

